import Mathlib

/-!
# Verification of the dart_mutant mutation-testing core

A shallow embedding of the Rust sources of `dart_mutant`:

* `src/mutation/mod.rs` — the `Mutation` data model and `Mutation::apply`;
* `src/parser/mod.rs`   — the tree-sitter driven mutation generator;
* `src/runner/mod.rs`   — the per-mutation test runner with its
  `FileRestoreGuard` RAII restoration idiom;
* `src/report/mod.rs`   — result aggregation (`MutationResult::from_results`).

Modelling conventions:

* Rust `String` / `&str` values (which the program manipulates at byte
  granularity) are modelled as `List Char`, one `Char` per byte; every index
  is taken to be a character boundary, which is faithful for all the
  byte-splice properties proved here.
* `f64` arithmetic is modelled over `ℚ` (the score computations involved stay
  exact well inside `f64` precision for the magnitudes at hand).
* External effects (tokio tasks, the spawned `dart test` process, file I/O)
  are modelled by explicit outcome parameters (`TestRun`, `SingleEvent`); the
  `Drop` impl of `FileRestoreGuard` is modelled by firing the guard's
  restoring write on every control-flow exit of the embedded critical
  section, which is exactly the Rust RAII guarantee being relied upon.
* The md5 hex digest used for `Mutation.id` is modelled by its preimage
  string (no claim depends on digest bytes, only on determinism).
-/

namespace DartMutant

/-- Byte string of a Lean string literal (one `Char` per byte). -/
def str (s : String) : List Char := s.data

/-- The single-quote character, written via its code point. -/
def singleQuote : Char := Char.ofNat 39

/-- `source.get(a..b).unwrap_or_default()` from Rust: the slice `[a, b)` of
the byte string when in bounds, else the empty string. -/
def getSlice (source : List Char) (a b : Nat) : List Char :=
  if a ≤ b ∧ b ≤ source.length then (source.drop a).take (b - a) else []

/-- Rust `str::trim_start_matches(c)`: drop every leading occurrence of `c`. -/
def trimStartChar (c : Char) (l : List Char) : List Char :=
  l.dropWhile (fun a => a = c)

/-- Rust `str::trim_end_matches(c)`: drop every trailing occurrence of `c`. -/
def trimEndChar (c : Char) (l : List Char) : List Char :=
  (l.reverse.dropWhile (fun a => a = c)).reverse

/-- Rust `str::starts_with(p)` for the two-character pattern `[x, x]`. -/
def startsWithPair (x : Char) : List Char → Bool
  | a :: b :: _ => a = x ∧ b = x
  | _ => false

/-- Rust `str::ends_with(p)` for the two-character pattern `[x, x]`. -/
def endsWithPair (x : Char) (l : List Char) : Bool :=
  startsWithPair x l.reverse

/-- Rust `str::replace(xx, yy)` specialised to a doubled-character pattern
`[x, x]` replaced by `[y, y]`: leftmost, non-overlapping. -/
def replacePair (x y : Char) : List Char → List Char
  | [] => []
  | [a] => [a]
  | a :: b :: rest =>
    if a = x ∧ b = x then y :: y :: replacePair x y rest
    else a :: replacePair x y (b :: rest)

/-- Rust `str::contains(p)` for a two-character pattern `[x, y]`. -/
def containsPair (x y : Char) : List Char → Bool
  | [] => false
  | [_] => false
  | a :: b :: rest => (a = x ∧ b = y) ∨ containsPair x y (b :: rest)

/-- Rust `str::replace(xy, z)` specialised to the two-character pattern
`[x, y]` replaced by the single character `z`: leftmost, non-overlapping. -/
def replacePairWith (x y z : Char) : List Char → List Char
  | [] => []
  | [a] => [a]
  | a :: b :: rest =>
    if a = x ∧ b = y then z :: replacePairWith x y z rest
    else a :: replacePairWith x y z (b :: rest)

/-! ## Data model (`src/mutation/mod.rs`) -/

/-- `SourceLocation` (mutation/mod.rs:11-19). -/
structure SourceLocation where
  file : List Char
  startLine : Nat
  startCol : Nat
  endLine : Nat
  endCol : Nat
  byteStart : Nat
  byteEnd : Nat
deriving DecidableEq, Repr

/-- `MutantStatus` (mutation/mod.rs:23-36). -/
inductive MutantStatus where
  | Killed
  | Survived
  | Timeout
  | NoCoverage
  | Error
  | Pending
deriving DecidableEq, Repr

/-- `MutationOperator` (mutation/mod.rs:139-238). -/
inductive MutationOperator where
  | Arithmetic | Comparison | Logical | Boolean | Unary | Assignment
  | NullSafety | String | Collection | Conditional | Return | Async
  | Literal | Bitwise | Other
  | ArithmeticAddToSub | ArithmeticSubToAdd | ArithmeticMulToDiv
  | ArithmeticDivToMul | ArithmeticModToMul
  | ComparisonLtToLte | ComparisonLtToGt | ComparisonLtToGte
  | ComparisonLteToLt | ComparisonLteToGt | ComparisonLteToGte
  | ComparisonGtToGte | ComparisonGtToLt | ComparisonGtToLte
  | ComparisonGteToGt | ComparisonGteToLt | ComparisonGteToLte
  | ComparisonEqToNeq | ComparisonNeqToEq
  | LogicalAndToOr | LogicalOrToAnd | LogicalNotRemoval
  | BooleanTrueToFalse | BooleanFalseToTrue
  | UnaryMinusRemoval | UnaryPlusMinus | UnaryIncrementToDecrement
  | UnaryDecrementToIncrement | UnaryPreToPost | UnaryPostToPre
  | AssignmentAddToSub | AssignmentSubToAdd | AssignmentMulToDiv
  | AssignmentDivToMul
  | NullCoalescingRemoval | NullAwareAccessRemoval | NullAssertionRemoval
  | NullCheckToTrue | NullCheckToFalse
  | StringEmptyToNonEmpty | StringNonEmptyToEmpty
  | CollectionEmptyCheck | CollectionNotEmptyCheck | CollectionAddRemoval
  | CollectionFirstToLast | CollectionLastToFirst
  | ControlFlowIfConditionTrue | ControlFlowIfConditionFalse
  | ControlFlowRemoveElse | ControlFlowBreakRemoval
  | ControlFlowContinueRemoval | ControlFlowReturnRemoval
  | AsyncAwaitRemoval | AsyncFutureValueToError
  | MethodCallRemoval
  | AiSuggested
deriving DecidableEq, Repr

/-- `MutationOperator::name` (mutation/mod.rs:242-343). -/
def MutationOperator.opName : MutationOperator → List Char
  | .Arithmetic => str "Arithmetic Operator"
  | .Comparison => str "Comparison Operator"
  | .Logical => str "Logical Operator"
  | .Boolean => str "Boolean Literal"
  | .Unary => str "Unary Operator"
  | .Assignment => str "Assignment Operator"
  | .NullSafety => str "Null Safety Operator"
  | .String => str "String Literal"
  | .Collection => str "Collection Operation"
  | .Conditional => str "Conditional"
  | .Return => str "Return Statement"
  | .Async => str "Async Operation"
  | .Literal => str "Literal Value"
  | .Bitwise => str "Bitwise Operator"
  | .Other => str "Other"
  | .ArithmeticAddToSub => str "Arithmetic: + → -"
  | .ArithmeticSubToAdd => str "Arithmetic: - → +"
  | .ArithmeticMulToDiv => str "Arithmetic: * → /"
  | .ArithmeticDivToMul => str "Arithmetic: / → *"
  | .ArithmeticModToMul => str "Arithmetic: % → *"
  | .ComparisonLtToLte => str "Comparison: < → <="
  | .ComparisonLtToGt => str "Comparison: < → >"
  | .ComparisonLtToGte => str "Comparison: < → >="
  | .ComparisonLteToLt => str "Comparison: <= → <"
  | .ComparisonLteToGt => str "Comparison: <= → >"
  | .ComparisonLteToGte => str "Comparison: <= → >="
  | .ComparisonGtToGte => str "Comparison: > → >="
  | .ComparisonGtToLt => str "Comparison: > → <"
  | .ComparisonGtToLte => str "Comparison: > → <="
  | .ComparisonGteToGt => str "Comparison: >= → >"
  | .ComparisonGteToLt => str "Comparison: >= → <"
  | .ComparisonGteToLte => str "Comparison: >= → <="
  | .ComparisonEqToNeq => str "Comparison: == → !="
  | .ComparisonNeqToEq => str "Comparison: != → =="
  | .LogicalAndToOr => str "Logical: && → ||"
  | .LogicalOrToAnd => str "Logical: || → &&"
  | .LogicalNotRemoval => str "Logical: !x → x"
  | .BooleanTrueToFalse => str "Boolean: true → false"
  | .BooleanFalseToTrue => str "Boolean: false → true"
  | .UnaryMinusRemoval => str "Unary: -x → x"
  | .UnaryPlusMinus => str "Unary: +x → -x"
  | .UnaryIncrementToDecrement => str "Unary: ++ → --"
  | .UnaryDecrementToIncrement => str "Unary: -- → ++"
  | .UnaryPreToPost => str "Unary: ++x → x++"
  | .UnaryPostToPre => str "Unary: x++ → ++x"
  | .AssignmentAddToSub => str "Assignment: += → -="
  | .AssignmentSubToAdd => str "Assignment: -= → +="
  | .AssignmentMulToDiv => str "Assignment: *= → /="
  | .AssignmentDivToMul => str "Assignment: /= → *="
  | .NullCoalescingRemoval => str "Null: x ?? y → x"
  | .NullAwareAccessRemoval => str "Null: x?.y → x.y"
  | .NullAssertionRemoval => str "Null: x! → x"
  | .NullCheckToTrue => str "Null: x != null → true"
  | .NullCheckToFalse => str "Null: x == null → false"
  | .StringEmptyToNonEmpty => str "String: '' → 'mutated'"
  | .StringNonEmptyToEmpty => str "String: 'x' → ''"
  | .CollectionEmptyCheck => str "Collection: isEmpty → isNotEmpty"
  | .CollectionNotEmptyCheck => str "Collection: isNotEmpty → isEmpty"
  | .CollectionAddRemoval => str "Collection: .add() removal"
  | .CollectionFirstToLast => str "Collection: .first → .last"
  | .CollectionLastToFirst => str "Collection: .last → .first"
  | .ControlFlowIfConditionTrue => str "Control: if(x) → if(true)"
  | .ControlFlowIfConditionFalse => str "Control: if(x) → if(false)"
  | .ControlFlowRemoveElse => str "Control: else removal"
  | .ControlFlowBreakRemoval => str "Control: break removal"
  | .ControlFlowContinueRemoval => str "Control: continue removal"
  | .ControlFlowReturnRemoval => str "Control: return removal"
  | .AsyncAwaitRemoval => str "Async: await removal"
  | .AsyncFutureValueToError => str "Async: Future.value → Future.error"
  | .MethodCallRemoval => str "Method: call removal"
  | .AiSuggested => str "AI Suggested"

/-- `Mutation` (mutation/mod.rs:40-69).  `ai_confidence: Option<f64>` is
modelled over `ℚ`. -/
structure Mutation where
  id : List Char
  location : SourceLocation
  operator : MutationOperator
  original : List Char
  mutated : List Char
  description : List Char
  replacements : List (List Char)
  aiSuggested : Bool
  aiConfidence : Option ℚ
deriving DecidableEq, Repr

/-- The id computed in `Mutation::new` (mutation/mod.rs:83-92): the md5 hex
digest of `"{file}:{line}:{original}:{replacement}"`, modelled by the digest
preimage itself (deterministic in the same four inputs). -/
def mutationIdModel (filePath : List Char) (line : Nat)
    (original replacement : List Char) : List Char :=
  filePath ++ str ":" ++ Nat.toDigits 10 line ++ str ":" ++ original
    ++ str ":" ++ replacement

/-- `Mutation::new` (mutation/mod.rs:73-114). -/
def Mutation.new (filePath : List Char) (byteStart byteEnd line column : Nat)
    (original replacement : List Char) (operator : MutationOperator) :
    Mutation :=
  { id := mutationIdModel filePath line original replacement
    location :=
      { file := filePath
        startLine := line
        startCol := column
        endLine := line
        endCol := column + original.length
        byteStart := byteStart
        byteEnd := byteEnd }
    operator := operator
    original := original
    mutated := replacement
    description :=
      operator.opName ++ str ": " ++ original ++ str " → " ++ replacement
    replacements := [replacement]
    aiSuggested := false
    aiConfidence := none }

/-- `Mutation::apply` (mutation/mod.rs:117-134): if either byte index is out
of bounds the source is returned unchanged (with a logged warning); otherwise
the replacement is spliced over `[byte_start, byte_end)`. -/
def Mutation.apply (m : Mutation) (source : List Char) : List Char :=
  if m.location.byteStart > source.length ∨ m.location.byteEnd > source.length
  then source
  else
    source.take m.location.byteStart ++ m.mutated
      ++ source.drop m.location.byteEnd

/-! ## Mutation generator (`src/parser/mod.rs`)

Tree-sitter is an external collaborator: its output is modelled as an
abstract concrete-syntax tree `TSNode` carrying the node kind, the byte
range into the source, and the 0-based start row/column, exactly the data
the generator reads from `tree_sitter::Node`. -/

/-- An abstract tree-sitter node: kind, byte range, 0-based start position,
children in document order. -/
inductive TSNode : Type where
  | mk (kind : List Char) (byteStart byteEnd row col : Nat)
      (children : List TSNode)

/-- Node kind. -/
def TSNode.kind : TSNode → List Char
  | .mk k _ _ _ _ _ => k

/-- `node.start_byte()`. -/
def TSNode.byteStart : TSNode → Nat
  | .mk _ bs _ _ _ _ => bs

/-- `node.end_byte()`. -/
def TSNode.byteEnd : TSNode → Nat
  | .mk _ _ be _ _ _ => be

/-- `node.start_position().row` (0-based). -/
def TSNode.row : TSNode → Nat
  | .mk _ _ _ r _ _ => r

/-- `node.start_position().column` (0-based). -/
def TSNode.col : TSNode → Nat
  | .mk _ _ _ _ c _ => c

/-- `node.children(..)` as a list. -/
def TSNode.children : TSNode → List TSNode
  | .mk _ _ _ _ _ ch => ch

/-- `get_node_text` (parser/mod.rs:148-150):
`source.get(node.byte_range()).unwrap_or_default()`. -/
def getNodeText (source : List Char) (n : TSNode) : List Char :=
  getSlice source n.byteStart n.byteEnd

/-- The replacement table of `find_binary_mutations` (parser/mod.rs:163-169). -/
def arithmeticReplacements (t : List Char) :
    List (List Char × MutationOperator) :=
  if t = str "+" then [(str "-", .ArithmeticAddToSub)]
  else if t = str "-" then [(str "+", .ArithmeticSubToAdd)]
  else if t = str "*" then [(str "/", .ArithmeticMulToDiv)]
  else if t = str "/" then [(str "*", .ArithmeticDivToMul)]
  else if t = str "%" then [(str "*", .ArithmeticModToMul)]
  else []

/-- `find_binary_mutations` (parser/mod.rs:152-185). -/
def findBinaryMutations (source file : List Char) (n : TSNode) :
    List Mutation :=
  n.children.flatMap fun c =>
    (arithmeticReplacements (getNodeText source c)).map fun p =>
      Mutation.new file c.byteStart c.byteEnd (c.row + 1) (c.col + 1)
        (getNodeText source c) p.1 p.2

/-- The replacement table of `find_comparison_mutations`
(parser/mod.rs:197-217). -/
def comparisonReplacements (t : List Char) :
    List (List Char × MutationOperator) :=
  if t = str "<" then
    [(str "<=", .ComparisonLtToLte), (str ">", .ComparisonLtToGt)]
  else if t = str "<=" then
    [(str "<", .ComparisonLteToLt), (str ">", .ComparisonLteToGt)]
  else if t = str ">" then
    [(str ">=", .ComparisonGtToGte), (str "<", .ComparisonGtToLt)]
  else if t = str ">=" then
    [(str ">", .ComparisonGteToGt), (str "<", .ComparisonGteToLt)]
  else if t = str "==" then [(str "!=", .ComparisonEqToNeq)]
  else if t = str "!=" then [(str "==", .ComparisonNeqToEq)]
  else []

/-- `find_comparison_mutations` (parser/mod.rs:187-232). -/
def findComparisonMutations (source file : List Char) (n : TSNode) :
    List Mutation :=
  n.children.flatMap fun c =>
    (comparisonReplacements (getNodeText source c)).map fun p =>
      Mutation.new file c.byteStart c.byteEnd (c.row + 1) (c.col + 1)
        (getNodeText source c) p.1 p.2

/-- The replacement table of `find_logical_mutations`
(parser/mod.rs:244-248). -/
def logicalReplacements (t : List Char) :
    List (List Char × MutationOperator) :=
  if t = str "&&" then [(str "||", .LogicalAndToOr)]
  else if t = str "||" then [(str "&&", .LogicalOrToAnd)]
  else []

/-- `find_logical_mutations` (parser/mod.rs:234-261). -/
def findLogicalMutations (source file : List Char) (n : TSNode) :
    List Mutation :=
  n.children.flatMap fun c =>
    (logicalReplacements (getNodeText source c)).map fun p =>
      Mutation.new file c.byteStart c.byteEnd (c.row + 1) (c.col + 1)
        (getNodeText source c) p.1 p.2

/-- `find_unary_mutations` (parser/mod.rs:263-313): remove a leading `!`
when something remains; swap `++` to `--` (or vice versa) when the node's
text starts or ends with the doubled operator. -/
def findUnaryMutations (source file : List Char) (n : TSNode) :
    List Mutation :=
  let text := getNodeText source n
  let notPart : List Mutation :=
    match text with
    | '!' :: rest =>
      if rest ≠ [] then
        [Mutation.new file n.byteStart n.byteEnd (n.row + 1) (n.col + 1)
          text rest .LogicalNotRemoval]
      else []
    | _ => []
  let incDecPart : List Mutation :=
    if startsWithPair '+' text ∨ endsWithPair '+' text then
      [Mutation.new file n.byteStart n.byteEnd (n.row + 1) (n.col + 1)
        text (replacePair '+' '-' text) .UnaryIncrementToDecrement]
    else if startsWithPair '-' text ∨ endsWithPair '-' text then
      [Mutation.new file n.byteStart n.byteEnd (n.row + 1) (n.col + 1)
        text (replacePair '-' '+' text) .UnaryDecrementToIncrement]
    else []
  notPart ++ incDecPart

/-- `create_boolean_mutation` (parser/mod.rs:315-333). -/
def createBooleanMutation (source file : List Char) (n : TSNode) : Mutation :=
  let original := getNodeText source n
  if original = str "true" then
    Mutation.new file n.byteStart n.byteEnd (n.row + 1) (n.col + 1)
      original (str "false") .BooleanTrueToFalse
  else
    Mutation.new file n.byteStart n.byteEnd (n.row + 1) (n.col + 1)
      original (str "true") .BooleanFalseToTrue

/-- `find_null_coalescing_mutation` (parser/mod.rs:335-357):
`x ?? y` → the text of `node.child(0)`. -/
def findNullCoalescingMutation (source file : List Char) (n : TSNode) :
    List Mutation :=
  match n.children with
  | [] => []
  | left :: _ =>
    [Mutation.new file n.byteStart n.byteEnd (n.row + 1) (n.col + 1)
      (getNodeText source n) (getNodeText source left) .NullCoalescingRemoval]

/-- `find_null_aware_access_mutation` (parser/mod.rs:359-381):
when the text contains `?.`, replace every `?.` with `.`. -/
def findNullAwareAccessMutation (source file : List Char) (n : TSNode) :
    List Mutation :=
  let text := getNodeText source n
  if containsPair '?' '.' text then
    [Mutation.new file n.byteStart n.byteEnd (n.row + 1) (n.col + 1)
      text (replacePairWith '?' '.' '.' text) .NullAwareAccessRemoval]
  else []

/-- `find_if_statement_mutations` (parser/mod.rs:383-422): for the first
child of kind `parenthesized_expression`, emit the `(true)` and `(false)`
condition replacements (the loop breaks after the first match). -/
def findIfStatementMutations (source file : List Char) (n : TSNode) :
    List Mutation :=
  match n.children.find?
      (fun c => c.kind = str "parenthesized_expression") with
  | none => []
  | some c =>
    [Mutation.new file c.byteStart c.byteEnd (c.row + 1) (c.col + 1)
      (getNodeText source c) (str "(true)") .ControlFlowIfConditionTrue,
     Mutation.new file c.byteStart c.byteEnd (c.row + 1) (c.col + 1)
      (getNodeText source c) (str "(false)") .ControlFlowIfConditionFalse]

/-- The quote-style choice of `find_string_mutation` (parser/mod.rs:437):
`if text.starts_with(single_quote) then single_quote else double_quote`. -/
def stringQuoteChar (text : List Char) : Char :=
  match text with
  | c :: _ => if c = singleQuote then singleQuote else '"'
  | [] => '"'

/-- `find_string_mutation` (parser/mod.rs:424-467): skip any text containing
`$`; otherwise trim the quote character (single quote when the text starts
with one, else double quote) from both ends and emit empty → `mutated`
content or non-empty → empty literal. -/
def findStringMutation (source file : List Char) (n : TSNode) :
    List Mutation :=
  let text := getNodeText source n
  if text.contains '$' then []
  else
    let quote : Char := stringQuoteChar text
    let inner := trimEndChar quote (trimStartChar quote text)
    if inner = [] then
      [Mutation.new file n.byteStart n.byteEnd (n.row + 1) (n.col + 1)
        text (quote :: (str "mutated" ++ [quote])) .StringEmptyToNonEmpty]
    else
      [Mutation.new file n.byteStart n.byteEnd (n.row + 1) (n.col + 1)
        text [quote, quote] .StringNonEmptyToEmpty]

/-- The kind dispatch of `find_mutations_in_node` (parser/mod.rs:95-139),
without the recursion into children. -/
def categoryMutations (source file : List Char) (n : TSNode) :
    List Mutation :=
  let k := n.kind
  if k = str "binary_expression" ∨ k = str "multiplicative_expression"
      ∨ k = str "additive_expression" then
    findBinaryMutations source file n
  else if k = str "relational_expression" ∨ k = str "equality_expression" then
    findComparisonMutations source file n
  else if k = str "logical_and_expression"
      ∨ k = str "logical_or_expression" then
    findLogicalMutations source file n
  else if k = str "unary_expression" ∨ k = str "prefix_expression"
      ∨ k = str "postfix_expression" then
    findUnaryMutations source file n
  else if k = str "true" ∨ k = str "false" then
    [createBooleanMutation source file n]
  else if k = str "if_null_expression" then
    findNullCoalescingMutation source file n
  else if k = str "conditional_member_access" then
    findNullAwareAccessMutation source file n
  else if k = str "if_statement" then
    findIfStatementMutations source file n
  else if k = str "string_literal" then
    findStringMutation source file n
  else []

mutual

/-- `find_mutations_in_node` (parser/mod.rs:86-146): the category mutations
of this node followed by the mutations of its children in order. -/
def findMutationsInNode (source file : List Char) : TSNode → List Mutation
  | .mk k bs be r c ch =>
    categoryMutations source file (.mk k bs be r c ch)
      ++ findMutationsInNodes source file ch

/-- The recursion of `find_mutations_in_node` over a child list. -/
def findMutationsInNodes (source file : List Char) :
    List TSNode → List Mutation
  | [] => []
  | n :: rest =>
    findMutationsInNode source file n ++ findMutationsInNodes source file rest

end

/-- A parsed tree as the generator sees it: the root node plus the
`has_error` flag exposed by tree-sitter on the root. -/
structure ParseTree where
  root : TSNode
  hasError : Bool

/-- The tree-walking part of `parse_and_find_mutations`
(parser/mod.rs:51-61): the source has been read and parsed; the mutations of
the whole tree are collected.  Note the `has_error` flag is never
consulted. -/
def parseAndFindMutationsModel (source file : List Char) (t : ParseTree) :
    List Mutation :=
  findMutationsInNode source file t.root

/-- The parse loop of `run_mutation_testing` (main.rs:83-87): each file's
`parse_and_find_mutations(file)?` result is appended; the `?` propagates the
first failure, aborting the whole run. -/
def collectAllMutations (results : List (Except (List Char) (List Mutation))) :
    Except (List Char) (List Mutation) :=
  match results with
  | [] => .ok []
  | r :: rest => do
    let ms ← r
    let more ← collectAllMutations rest
    pure (ms ++ more)

/-! ## Runner (`src/runner/mod.rs`)

The external test process and the possible I/O failures are modelled by
explicit outcome parameters.  The `FileRestoreGuard` RAII idiom is modelled
by firing the guard's restoring write at the end of every control-flow path
of the critical section — the exact guarantee `Drop` provides in Rust,
including during unwinding after a panic. -/

/-- Outcome of `timeout(T, run_dart_test(project_path)).await`
(runner/mod.rs:179) as matched at runner/mod.rs:184-203:
`timedOut` is `Err(Elapsed)`, `spawnFailed` is `Ok(Err(e))`, and
`exited code out err` is `Ok(Ok((exit_code, stdout, stderr)))` (a process
killed by a signal surfaces as code `-1` via `unwrap_or(-1)`). -/
inductive TestRun where
  | timedOut
  | spawnFailed (msg : List Char)
  | exited (code : Int) (stdout stderr : List Char)
deriving DecidableEq, Repr

/-- The classification match of `test_single_mutation`
(runner/mod.rs:184-203), returning `(status, output, error)`. -/
def classifyTestResult (t : TestRun) :
    MutantStatus × Option (List Char) × Option (List Char) :=
  match t with
  | .exited code stdout stderr =>
    if code = 0 then (.Survived, some stdout, none)
    else (.Killed, some stdout, some stderr)
  | .spawnFailed e => (.Error, none, some e)
  | .timedOut => (.Timeout, none, some (str "Test timed out"))

/-- `FileRestoreGuard` (runner/mod.rs:20-23). -/
structure FileRestoreGuard where
  path : List Char
  originalContent : List Char
deriving DecidableEq, Repr

/-- `FileRestoreGuard::drop` (runner/mod.rs:25-31): the content written back
to the guarded file when the guard goes out of scope. -/
def FileRestoreGuard.fireDrop (g : FileRestoreGuard) : List Char :=
  g.originalContent

/-- `MutantTestResult` (runner/mod.rs:34-41); wall-clock `duration` is
outside the model and fixed to `0`. -/
structure MutantTestResult where
  mutation : Mutation
  status : MutantStatus
  duration : Nat
  output : Option (List Char)
  error : Option (List Char)
deriving DecidableEq, Repr

/-- How one execution of `test_single_mutation` resolves: the initial file
read fails, the write of the mutated source fails, the task panics or is
cancelled inside the critical section, or the awaited test command finishes
with outcome `t`. -/
inductive SingleEvent where
  | readFailed (msg : List Char)
  | writeFailed (msg : List Char)
  | panicked
  | testFinished (t : TestRun)
deriving DecidableEq, Repr

/-- Observable effect of one `test_single_mutation` call: the produced
result (`none` when the task panicked and no result value exists), the file
content after the call, and the file content in place while the test command
ran (`none` when no test command was started). -/
structure SingleRun where
  result : Option MutantTestResult
  finalContent : List Char
  testedContent : Option (List Char)
deriving DecidableEq, Repr

/-- `test_single_mutation` (runner/mod.rs:136-212) over the current content
of `mutation.location.file`.  The original snapshot is read, the mutation is
applied via `Mutation::apply` (no bounds or original-slice verification
happens here), the `FileRestoreGuard` is constructed, the mutated source is
written, the test command runs, and on every exit path past the guard's
construction the guard's drop rewrites the snapshot. -/
def testSingleMutation (m : Mutation) (ev : SingleEvent)
    (fileContent : List Char) : SingleRun :=
  match ev with
  | .readFailed msg =>
    -- runner/mod.rs:145-156: early return, no guard exists, no write happened
    { result := some
        { mutation := m, status := .Error, duration := 0, output := none
          error := some (str "Failed to read file: " ++ msg) }
      finalContent := fileContent
      testedContent := none }
  | .writeFailed msg =>
    -- runner/mod.rs:168-176: the guard exists; drop fires on the early return
    let restoreGuard : FileRestoreGuard :=
      { path := m.location.file, originalContent := fileContent }
    { result := some
        { mutation := m, status := .Error, duration := 0, output := none
          error := some (str "Failed to write mutated file: " ++ msg) }
      finalContent := restoreGuard.fireDrop
      testedContent := none }
  | .panicked =>
    -- the mutated bytes are on disk; unwinding runs the guard's drop
    let restoreGuard : FileRestoreGuard :=
      { path := m.location.file, originalContent := fileContent }
    { result := none
      finalContent := restoreGuard.fireDrop
      testedContent := some (m.apply fileContent) }
  | .testFinished t =>
    -- runner/mod.rs:179-211: test ran against the written mutated source
    let restoreGuard : FileRestoreGuard :=
      { path := m.location.file, originalContent := fileContent }
    let c := classifyTestResult t
    { result := some
        { mutation := m, status := c.1, duration := 0
          output := c.2.1, error := c.2.2 }
      finalContent := restoreGuard.fireDrop
      testedContent := some (m.apply fileContent) }

/-- Per-task event at the `run_mutation_tests` level (runner/mod.rs:89-123):
either the semaphore is closed (the task returns an `Error` result without
entering the critical section) or `test_single_mutation` runs with its own
event. -/
inductive MutEvent where
  | semaphoreClosed
  | runs (ev : SingleEvent)
deriving DecidableEq, Repr

/-- One scheduled task: its mutation, how its execution resolves, and the
content its file holds when the task's turn on the per-file lock comes. -/
structure MutJob where
  mutation : Mutation
  event : MutEvent
  fileContent : List Char
deriving DecidableEq, Repr

/-- The value a spawned task's join handle yields (runner/mod.rs:89-123):
`none` models a `JoinError` (the task panicked). -/
def taskResult (j : MutJob) : Option MutantTestResult :=
  match j.event with
  | .semaphoreClosed => some
      { mutation := j.mutation, status := .Error, duration := 0
        output := none
        error := some (str "Failed to acquire semaphore") }
  | .runs ev => (testSingleMutation j.mutation ev j.fileContent).result

/-- `run_mutation_tests` (runner/mod.rs:60-133): one task per input mutation
in input order; results are collected by awaiting the join handles in that
same order, and `handle.await?` aborts on the first panicked task. -/
def runMutationTests (jobs : List MutJob) :
    Except (List Char) (List MutantTestResult) :=
  match jobs with
  | [] => .ok []
  | j :: rest =>
    match taskResult j with
    | none => .error (str "JoinError: task panicked")
    | some r =>
      match runMutationTests rest with
      | .ok rs => .ok (r :: rs)
      | .error e => .error e

/-! ## Result aggregation (`src/report/mod.rs`) -/

/-- `MutationResult` (report/mod.rs:48-56); `mutation_score: f64` is
modelled over `ℚ`. -/
structure MutationResult where
  total : Nat
  killed : Nat
  survived : Nat
  timeout : Nat
  noCoverage : Nat
  errors : Nat
  mutationScore : ℚ
deriving DecidableEq, Repr

/-- `MutationResult::default` (report/mod.rs:58-70). -/
def MutationResult.defaultResult : MutationResult :=
  { total := 0, killed := 0, survived := 0, timeout := 0
    noCoverage := 0, errors := 0, mutationScore := 0 }

/-- The loop body of `MutationResult::from_results` (report/mod.rs:77-85):
each result increments exactly one tally; `Error` and `Pending` share the
`errors` tally. -/
def tallyStep (r : MutationResult) (result : MutantTestResult) :
    MutationResult :=
  match result.status with
  | .Killed => { r with killed := r.killed + 1 }
  | .Survived => { r with survived := r.survived + 1 }
  | .Timeout => { r with timeout := r.timeout + 1 }
  | .NoCoverage => { r with noCoverage := r.noCoverage + 1 }
  | .Error => { r with errors := r.errors + 1 }
  | .Pending => { r with errors := r.errors + 1 }

/-- `MutationResult::from_results` (report/mod.rs:73-96). -/
def MutationResult.fromResults (results : List MutantTestResult) :
    MutationResult :=
  let r0 : MutationResult :=
    { MutationResult.defaultResult with total := results.length }
  let r := results.foldl tallyStep r0
  let detected := r.killed + r.timeout
  let valid := r.total - r.errors - r.noCoverage
  { r with mutationScore :=
      if valid > 0 then ((detected : ℚ) / (valid : ℚ)) * 100 else 0 }

/-! ## Specification-side definitions and concrete inputs -/

/-- Spec-side (§4.3 table, Comparison row): the pairwise replacements the
specification prescribes for each relational-family operator — `<` ⇒
`{<=, >}`; `<=` ⇒ `{<, >}`; `>` ⇒ `{>=, <}`; `>=` ⇒ `{>, <}`; `==` ⇔ `!=` —
and no replacement for any other token.  To be compared against the
generator's `comparisonReplacements`. -/
def relationalFamilyTargets (op : List Char) : List (List Char) :=
  if op = str "<" then [str "<=", str ">"]
  else if op = str "<=" then [str "<", str ">"]
  else if op = str ">" then [str ">=", str "<"]
  else if op = str ">=" then [str ">", str "<"]
  else if op = str "==" then [str "!="]
  else if op = str "!=" then [str "=="]
  else []

/-- Number of results in a list carrying the given status. -/
def countStatus (s : MutantStatus) (rs : List MutantTestResult) : Nat :=
  rs.countP (fun r => r.status == s)

/-- A well-formed arithmetic mutation used as a concrete input: `+` → `-` at
bytes `[1, 2)` of `"a+b"`. -/
def mDemo : Mutation :=
  Mutation.new (str "lib/a.dart") 1 2 1 2 (str "+") (str "-") .Arithmetic

/-- A second well-formed mutation on another file, for order-sensitive
concrete runs. -/
def mDemo2 : Mutation :=
  Mutation.new (str "lib/b.dart") 0 4 1 1 (str "true") (str "false")
    .BooleanTrueToFalse

/-- A mutation whose byte range `[100, 101)` is out of bounds for the
3-byte file content `"a+b"`. -/
def mOob : Mutation :=
  Mutation.new (str "lib/a.dart") 100 101 1 1 (str "+") (str "-") .Arithmetic

/-- A `Killed` result, as the runner produces. -/
def resKilled : MutantTestResult :=
  { mutation := mDemo, status := .Killed, duration := 0
    output := some (str "tests failed"), error := some [] }

/-- A result still carrying the initial `Pending` status. -/
def resPending : MutantTestResult :=
  { mutation := mDemo2, status := .Pending, duration := 0
    output := none, error := none }

/-- A job whose test command exits non-zero. -/
def jobKilled : MutJob :=
  { mutation := mDemo, event := .runs (.testFinished (.exited 1 [] []))
    fileContent := str "a+b" }

/-- A job whose initial file read fails (its result gets status `Error`). -/
def jobReadErr : MutJob :=
  { mutation := mDemo2, event := .runs (.readFailed (str "denied"))
    fileContent := str "true" }

/-- The Dart source `if (true) {}`. -/
def ifSrc : List Char := str "if (true) {}"

/-- The `parenthesized_expression` node spanning bytes `[3, 9)` — the
condition `(true)` — of `ifSrc`. -/
def parenCondNode : TSNode :=
  .mk (str "parenthesized_expression") 3 9 0 3 []

/-- The `if_statement` node of `ifSrc` with its keyword, condition and block
children. -/
def ifStmtNode : TSNode :=
  .mk (str "if_statement") 0 12 0 0
    [.mk (str "if") 0 2 0 0 [], parenCondNode,
     .mk (str "block") 10 12 0 10 []]

/-- The Dart source `var s = 'hi';`. -/
def strSrc : List Char := str "var s = 'hi';"

/-- The `string_literal` node spanning bytes `[8, 12)` — the literal
`'hi'` — of `strSrc`. -/
def strLitNode : TSNode := .mk (str "string_literal") 8 12 0 8 []

/-- The `string_literal` node for the empty literal `''` in `var s = '';`
(bytes `[8, 10)`). -/
def emptyStrLitNode : TSNode := .mk (str "string_literal") 8 10 0 8 []

/-- The Dart source `var s = '';`. -/
def emptyStrSrc : List Char := str "var s = '';"

/-- A leaf `true` boolean-literal node covering the whole 4-byte source
`true`, used as the root of a tree whose `has_error` flag is set. -/
def trueLeafNode : TSNode := .mk (str "true") 0 4 0 0 []

/-- A parse tree whose root has `has_error = true` yet contains a
recognizable boolean literal. -/
def errParseTree : ParseTree := { root := trueLeafNode, hasError := true }

/-! ## Helper lemmas -/

/-- The counters accumulated by the `from_results` loop: each field of the
fold equals its initial value plus the number of results with the matching
status (`Error` and `Pending` share the `errors` field); `total` and
`mutation_score` are untouched by the loop. -/
theorem foldl_tallyStep_fields (rs : List MutantTestResult)
    (r0 : MutationResult) :
    (rs.foldl tallyStep r0).killed = r0.killed + countStatus .Killed rs ∧
    (rs.foldl tallyStep r0).survived
      = r0.survived + countStatus .Survived rs ∧
    (rs.foldl tallyStep r0).timeout = r0.timeout + countStatus .Timeout rs ∧
    (rs.foldl tallyStep r0).noCoverage
      = r0.noCoverage + countStatus .NoCoverage rs ∧
    (rs.foldl tallyStep r0).errors
      = r0.errors + countStatus .Error rs + countStatus .Pending rs ∧
    (rs.foldl tallyStep r0).total = r0.total ∧
    (rs.foldl tallyStep r0).mutationScore = r0.mutationScore := by
  induction rs generalizing r0 with
  | nil => simp [countStatus]
  | cons a l ih =>
    obtain ⟨hk, hs, ht, hnc, he, htt, hms⟩ := ih (tallyStep r0 a)
    refine ⟨?_, ?_, ?_, ?_, ?_, ?_, ?_⟩ <;>
        simp only [List.foldl_cons, hk, hs, ht, hnc, he, htt, hms,
          countStatus, List.countP_cons] <;>
      cases h : a.status <;> simp [tallyStep, h, countStatus] <;> omega

/-- Every result carries exactly one status, so the six per-status counts
sum to the length of the list. -/
theorem countStatus_sum (rs : List MutantTestResult) :
    countStatus .Killed rs + countStatus .Survived rs
      + countStatus .Timeout rs + countStatus .NoCoverage rs
      + countStatus .Error rs + countStatus .Pending rs = rs.length := by
  induction rs with
  | nil => simp [countStatus]
  | cons a l ih =>
    simp only [countStatus, List.countP_cons, List.length_cons] at ih ⊢
    cases h : a.status <;> simp [h] <;> omega

/-- A task yields a result (its join succeeds) and that result names the
task's own mutation, whenever the task does not panic. -/
theorem taskResult_some (j : MutJob) (h : j.event ≠ .runs .panicked) :
    ∃ r, taskResult j = some r ∧ r.mutation = j.mutation := by
  match hj : j.event with
  | .semaphoreClosed => exact ⟨_, by rw [taskResult, hj], rfl⟩
  | .runs ev =>
    match ev with
    | .readFailed msg => exact ⟨_, by rw [taskResult, hj]; rfl, rfl⟩
    | .writeFailed msg => exact ⟨_, by rw [taskResult, hj]; rfl, rfl⟩
    | .panicked => exact absurd hj h
    | .testFinished t => exact ⟨_, by rw [taskResult, hj]; rfl, rfl⟩

/-! ## Claims -/

/-- C1 — Restoration: for every mutation, every current file content and
every outcome of `test_single_mutation` (test finished in any of its three
ways, read failure, write failure, or a panic/cancellation inside the
critical section), the file content after the call is byte-identical to the
content read before the mutated bytes were written. -/
theorem restoration_invariant (m : Mutation) (ev : SingleEvent)
    (fc : List Char) :
    (testSingleMutation m ev fc).finalContent = fc := by
  cases ev <;> rfl

/-- C4 — Outcome classification: with the test command spawned and finished
within the timeout, the status is `Survived` iff the exit code is zero and
`Killed` iff it is non-zero; an elapsed timeout gives `Timeout`; a failed
spawn gives `Error`. -/
theorem outcome_classification (m : Mutation) (fc : List Char) (code : Int)
    (stdout stderr emsg : List Char) :
    (((testSingleMutation m (.testFinished (.exited code stdout stderr))
          fc).result.map (fun r => r.status) = some .Survived) ↔ code = 0) ∧
    (((testSingleMutation m (.testFinished (.exited code stdout stderr))
          fc).result.map (fun r => r.status) = some .Killed) ↔ code ≠ 0) ∧
    ((testSingleMutation m (.testFinished .timedOut)
        fc).result.map (fun r => r.status) = some .Timeout) ∧
    ((testSingleMutation m (.testFinished (.spawnFailed emsg))
        fc).result.map (fun r => r.status) = some .Error) := by
  refine ⟨?_, ?_, rfl, rfl⟩ <;>
    by_cases h : code = 0 <;>
    simp [testSingleMutation, classifyTestResult, h]

/-- Closed form of `MutationResult::from_results`: each tally counts its
status (`errors` counting both `Error` and `Pending`) and the score is the
guarded quotient the code computes. -/
theorem fromResults_spec (rs : List MutantTestResult) :
    MutationResult.fromResults rs =
      ⟨rs.length, countStatus .Killed rs, countStatus .Survived rs,
       countStatus .Timeout rs, countStatus .NoCoverage rs,
       countStatus .Error rs + countStatus .Pending rs,
       if rs.length - (countStatus .Error rs + countStatus .Pending rs)
          - countStatus .NoCoverage rs > 0 then
         (((countStatus .Killed rs + countStatus .Timeout rs : Nat)) : ℚ) /
           (((rs.length
              - (countStatus .Error rs + countStatus .Pending rs)
              - countStatus .NoCoverage rs : Nat)) : ℚ) * 100
       else 0⟩ := by
  obtain ⟨hk, hs, ht, hnc, he, htt, hms⟩ :=
    foldl_tallyStep_fields rs ⟨rs.length, 0, 0, 0, 0, 0, 0⟩
  simp only [Nat.zero_add] at hk hs ht hnc he htt
  simp only [MutationResult.fromResults, MutationResult.defaultResult,
    hk, hs, ht, hnc, he, htt]

/-- C10 — Tally partition: aggregation counts every result under exactly one
tally (a `Pending` status lands in `errors` together with `Error`), so the
total equals the sum of the five tallies. -/
theorem tally_partition (rs : List MutantTestResult) :
    (MutationResult.fromResults rs).total
        = (MutationResult.fromResults rs).killed
          + (MutationResult.fromResults rs).survived
          + (MutationResult.fromResults rs).timeout
          + (MutationResult.fromResults rs).noCoverage
          + (MutationResult.fromResults rs).errors ∧
    (MutationResult.fromResults rs).killed = countStatus .Killed rs ∧
    (MutationResult.fromResults rs).survived = countStatus .Survived rs ∧
    (MutationResult.fromResults rs).timeout = countStatus .Timeout rs ∧
    (MutationResult.fromResults rs).noCoverage
      = countStatus .NoCoverage rs ∧
    (MutationResult.fromResults rs).errors
      = countStatus .Error rs + countStatus .Pending rs := by
  have hsum := countStatus_sum rs
  rw [fromResults_spec]
  refine ⟨by simp; omega, rfl, rfl, rfl, rfl, rfl⟩

/-- C3 (counterexample) — on the two-element result list `[Killed, Pending]`
the aggregated score is `100`, while the claimed formula
`100 × (Killed + Timeout) / (Total − Error − NoCoverage)` evaluates to `50`:
the code excludes `Pending` from the denominator (it tallies it under
`errors`), the claimed formula does not. -/
theorem scoring_law_counterexample :
    (MutationResult.fromResults [resKilled, resPending]).mutationScore ≠
      100 * ((countStatus .Killed [resKilled, resPending]
          + countStatus .Timeout [resKilled, resPending] : ℚ)) /
        ((([resKilled, resPending].length
            - countStatus .Error [resKilled, resPending]
            - countStatus .NoCoverage [resKilled, resPending] : Nat)) : ℚ) := by
  have hL : (MutationResult.fromResults [resKilled, resPending]).mutationScore
      = 100 := by
    simp [MutationResult.fromResults, MutationResult.defaultResult, tallyStep,
      resKilled, resPending, List.foldl]
  have h1 : countStatus .Killed [resKilled, resPending] = 1 := by decide
  have h2 : countStatus .Timeout [resKilled, resPending] = 0 := by decide
  have h3 : countStatus .Error [resKilled, resPending] = 0 := by decide
  have h4 : countStatus .NoCoverage [resKilled, resPending] = 0 := by decide
  rw [hL, h1, h2, h3, h4]
  norm_num

/-- C3 (amended) — Scoring law: the aggregated `mutation_score` equals
`100 × (Killed + Timeout) / (Total − (Error + Pending) − NoCoverage)`, and
equals `0` when that denominator is zero — i.e. the spec's formula with the
results the code counts as errors (`Error` and `Pending`) both removed from
the denominator. -/
theorem scoring_law (rs : List MutantTestResult) :
    (MutationResult.fromResults rs).mutationScore =
      if rs.length - (countStatus .Error rs + countStatus .Pending rs)
          - countStatus .NoCoverage rs = 0 then 0
      else 100 * ((countStatus .Killed rs + countStatus .Timeout rs : ℚ)) /
        (((rs.length
            - (countStatus .Error rs + countStatus .Pending rs)
            - countStatus .NoCoverage rs : Nat)) : ℚ) := by
  rw [fromResults_spec]
  by_cases hd : rs.length
      - (countStatus .Error rs + countStatus .Pending rs)
      - countStatus .NoCoverage rs = 0
  · have hngt : ¬ (rs.length
        - (countStatus .Error rs + countStatus .Pending rs)
        - countStatus .NoCoverage rs > 0) := by omega
    simp [hd, hngt]
  · have hgt : rs.length
        - (countStatus .Error rs + countStatus .Pending rs)
        - countStatus .NoCoverage rs > 0 := by omega
    simp only [hd, hgt, if_false, if_true]
    push_cast
    ring

/-- C5 — Completeness and order: when no task panics, the runner returns
`Ok` with exactly one result per input mutation, in input order — including
jobs that resolve to status `Error` (failed read/write/spawn or a closed
semaphore), which never short-circuit the run. -/
theorem runner_completeness (jobs : List MutJob)
    (h : ∀ j ∈ jobs, j.event ≠ .runs .panicked) :
    ∃ rs, runMutationTests jobs = .ok rs ∧ rs.length = jobs.length ∧
      rs.map (fun r => r.mutation) = jobs.map (fun j => j.mutation) := by
  induction jobs with
  | nil => exact ⟨[], rfl, rfl, rfl⟩
  | cons j rest ih =>
    obtain ⟨rs, hok, hlen, hmap⟩ :=
      ih (fun x hx => h x (List.mem_cons_of_mem _ hx))
    obtain ⟨r, hr, hrm⟩ := taskResult_some j (h j (List.mem_cons_self _ _))
    refine ⟨r :: rs, ?_, ?_, ?_⟩
    · simp [runMutationTests, hr, hok]
    · simp [hlen]
    · simp [hmap, hrm]

/-- Witness for C5: a concrete two-job run — the first job's file read fails
(an individual failure) and the second runs normally — returns `Ok` with
both results present in input order. -/
theorem runner_completeness_witness :
    (∀ j ∈ [jobReadErr, jobKilled], j.event ≠ .runs .panicked) ∧
    ∃ rs, runMutationTests [jobReadErr, jobKilled] = .ok rs ∧
      rs.length = [jobReadErr, jobKilled].length ∧
      rs.map (fun r => r.mutation)
        = [jobReadErr, jobKilled].map (fun j => j.mutation) :=
  ⟨by decide, runner_completeness [jobReadErr, jobKilled] (by decide)⟩

/-- C2 (counterexample) — a mutation whose byte range `[100, 101)` is out of
bounds for the 3-byte file `"a+b"` is *not* classified `Error`: the runner
runs the test command against the unmodified file and reports `Survived`
when it exits zero. -/
theorem bounds_check_counterexample :
    mOob.location.byteStart > (str "a+b").length ∧
    (testSingleMutation mOob (.testFinished (.exited 0 [] []))
        (str "a+b")).result.map (fun r => r.status)
      ≠ some MutantStatus.Error ∧
    (testSingleMutation mOob (.testFinished (.exited 0 [] []))
        (str "a+b")).testedContent = some (str "a+b") := by decide

/-- C2 (amended) — for an out-of-bounds byte range, `Mutation::apply`
returns the source unchanged and the runner still writes it and runs the
test command against the unmodified file, classifying the result by the test
outcome (never `Error` on account of the range); and for an in-bounds range
the replacement is spliced regardless of whether the slice equals
`mutation.original` — no slice verification is ever performed. -/
theorem bounds_check_amended :
    (∀ (m : Mutation) (fc : List Char) (t : TestRun),
        m.location.byteStart > fc.length ∨ m.location.byteEnd > fc.length →
        m.apply fc = fc ∧
        (testSingleMutation m (.testFinished t) fc).testedContent = some fc ∧
        (testSingleMutation m (.testFinished t) fc).result.map
            (fun r => r.status)
          = some (classifyTestResult t).1) ∧
    (∀ (m : Mutation) (fc : List Char),
        m.location.byteStart ≤ fc.length → m.location.byteEnd ≤ fc.length →
        m.apply fc
          = fc.take m.location.byteStart ++ m.mutated
            ++ fc.drop m.location.byteEnd) := by
  constructor
  · intro m fc t hoob
    have happ : m.apply fc = fc := by
      unfold Mutation.apply
      simp [hoob]
    exact ⟨happ, by simp [testSingleMutation, happ], by
      simp [testSingleMutation]⟩
  · intro m fc h1 h2
    unfold Mutation.apply
    have hn : ¬ (m.location.byteStart > fc.length
        ∨ m.location.byteEnd > fc.length) := by omega
    simp [hn]

/-- Witness for C2 (amended): the out-of-bounds branch at `mOob` over
`"a+b"` with a zero exit code, and the unverified-splice branch at the
in-bounds `mDemo`. -/
theorem bounds_check_amended_witness :
    (mOob.apply (str "a+b") = str "a+b" ∧
      (testSingleMutation mOob (.testFinished (.exited 0 [] []))
          (str "a+b")).testedContent = some (str "a+b") ∧
      (testSingleMutation mOob (.testFinished (.exited 0 [] []))
          (str "a+b")).result.map (fun r => r.status)
        = some (classifyTestResult (.exited 0 [] [])).1) ∧
    mDemo.apply (str "a+b")
      = (str "a+b").take mDemo.location.byteStart ++ mDemo.mutated
        ++ (str "a+b").drop mDemo.location.byteEnd :=
  ⟨bounds_check_amended.1 mOob (str "a+b") (.exited 0 [] []) (by decide),
   bounds_check_amended.2 mDemo (str "a+b") (by decide) (by decide)⟩

/-- C6 (counterexample) — a parse tree whose root carries
`has_error = true` and contains a `true` boolean-literal node still yields
mutations: the generator never consults the error flag. -/
theorem parse_error_counterexample :
    errParseTree.hasError = true ∧
    parseAndFindMutationsModel (str "true") (str "lib/a.dart") errParseTree
      ≠ [] := by decide

/-- C6 (amended) — the generator ignores the `has_error` flag entirely
(trees with and without the flag yield identical mutations), and a file
whose parse fails aborts the whole mutation-collection loop with that error
(the `?` propagates) instead of contributing zero mutations with a
warning. -/
theorem parse_error_handling :
    (∀ (src file : List Char) (root : TSNode) (b1 b2 : Bool),
        parseAndFindMutationsModel src file ⟨root, b1⟩
          = parseAndFindMutationsModel src file ⟨root, b2⟩) ∧
    (∀ (pre : List (Except (List Char) (List Mutation))) (e : List Char)
        (post : List (Except (List Char) (List Mutation))),
        ∃ e2, collectAllMutations (pre ++ .error e :: post) = .error e2) := by
  constructor
  · intro src file root b1 b2
    rfl
  · intro pre e post
    induction pre with
    | nil => exact ⟨e, rfl⟩
    | cons r rest ih =>
      cases r with
      | error e3 => exact ⟨e3, rfl⟩
      | ok ms =>
        obtain ⟨e2, h⟩ := ih
        refine ⟨e2, ?_⟩
        have hstep : collectAllMutations
            ((Except.ok ms :: rest) ++ Except.error e :: post)
            = Except.bind
                (collectAllMutations (rest ++ Except.error e :: post))
                (fun more => Except.ok (ms ++ more)) := rfl
        rw [hstep, h]
        rfl

/-- C7 (counterexample) — on the empty literal `''` of `var s = '';` the
generator's replacement content is `mutated`, not `MUTATED_`. -/
theorem string_mutation_counterexample :
    (findStringMutation emptyStrSrc (str "lib/a.dart")
        emptyStrLitNode).map (fun mu => mu.mutated)
      = [singleQuote :: (str "mutated" ++ [singleQuote])] ∧
    ∀ mu ∈ findStringMutation emptyStrSrc (str "lib/a.dart") emptyStrLitNode,
      mu.mutated ≠ singleQuote :: (str "MUTATED_" ++ [singleQuote]) := by
  decide

/-- C7 (amended) — for a string-literal node whose text contains no `$`
(the generator's interpolation test, so in particular for every
interpolation-free literal it accepts): an empty literal (nothing left after
trimming the quote character) yields exactly one mutation replacing it with
quoted `mutated` content in the same quote style, a non-empty literal yields
exactly one mutation replacing it with the empty literal in the same quote
style; any text containing `$` — in particular every interpolated string —
yields no String-category mutation. -/
theorem string_mutation_law (src file : List Char) (n : TSNode) :
    ((getNodeText src n).contains '$' = true →
      findStringMutation src file n = []) ∧
    ((getNodeText src n).contains '$' = false →
      (trimEndChar (stringQuoteChar (getNodeText src n))
          (trimStartChar (stringQuoteChar (getNodeText src n))
            (getNodeText src n)) = [] →
        ∃ mu, findStringMutation src file n = [mu] ∧
          mu.original = getNodeText src n ∧
          mu.mutated = stringQuoteChar (getNodeText src n)
            :: (str "mutated" ++ [stringQuoteChar (getNodeText src n)]) ∧
          mu.operator = .StringEmptyToNonEmpty ∧
          mu.location.byteStart = n.byteStart ∧
          mu.location.byteEnd = n.byteEnd) ∧
      (trimEndChar (stringQuoteChar (getNodeText src n))
          (trimStartChar (stringQuoteChar (getNodeText src n))
            (getNodeText src n)) ≠ [] →
        ∃ mu, findStringMutation src file n = [mu] ∧
          mu.original = getNodeText src n ∧
          mu.mutated = [stringQuoteChar (getNodeText src n),
            stringQuoteChar (getNodeText src n)] ∧
          mu.operator = .StringNonEmptyToEmpty ∧
          mu.location.byteStart = n.byteStart ∧
          mu.location.byteEnd = n.byteEnd)) := by
  constructor
  · intro h
    simp only [findStringMutation]
    rw [h]
    rfl
  · intro h
    constructor
    · intro hinner
      refine ⟨Mutation.new file n.byteStart n.byteEnd (n.row + 1) (n.col + 1)
          (getNodeText src n)
          (stringQuoteChar (getNodeText src n)
            :: (str "mutated" ++ [stringQuoteChar (getNodeText src n)]))
          .StringEmptyToNonEmpty, ?_, rfl, rfl, rfl, rfl, rfl⟩
      simp only [findStringMutation]
      rw [h]
      simp only [Bool.false_eq_true, if_false, hinner, if_true]
    · intro hinner
      refine ⟨Mutation.new file n.byteStart n.byteEnd (n.row + 1) (n.col + 1)
          (getNodeText src n)
          [stringQuoteChar (getNodeText src n),
            stringQuoteChar (getNodeText src n)]
          .StringNonEmptyToEmpty, ?_, rfl, rfl, rfl, rfl, rfl⟩
      simp only [findStringMutation]
      rw [h]
      simp only [Bool.false_eq_true, if_false, hinner, if_true]

/-- Witness for C7 (amended): the non-empty literal `'hi'` of
`var s = 'hi';` gets exactly the empty-literal replacement `''`. -/
theorem string_mutation_law_witness :
    (getNodeText strSrc strLitNode).contains '$' = false ∧
    trimEndChar (stringQuoteChar (getNodeText strSrc strLitNode))
        (trimStartChar (stringQuoteChar (getNodeText strSrc strLitNode))
          (getNodeText strSrc strLitNode)) ≠ [] ∧
    ∃ mu, findStringMutation strSrc (str "lib/a.dart") strLitNode = [mu] ∧
      mu.original = getNodeText strSrc strLitNode ∧
      mu.mutated = [stringQuoteChar (getNodeText strSrc strLitNode),
        stringQuoteChar (getNodeText strSrc strLitNode)] ∧
      mu.operator = .StringNonEmptyToEmpty ∧
      mu.location.byteStart = strLitNode.byteStart ∧
      mu.location.byteEnd = strLitNode.byteEnd :=
  ⟨by decide, by decide,
   ((string_mutation_law strSrc (str "lib/a.dart") strLitNode).2
      (by decide)).2 (by decide)⟩

/-- The generator's comparison table projected to its replacement strings is
the specification's relational-family table. -/
theorem comparisonReplacements_targets (file t : List Char)
    (bs be r c : Nat) :
    ((comparisonReplacements t).map (fun p =>
        Mutation.new file bs be r c t p.1 p.2)).map
      (fun m => (m.original, m.mutated, m.location.byteStart,
        m.location.byteEnd))
    = (relationalFamilyTargets t).map (fun rep => (t, rep, bs, be)) := by
  unfold comparisonReplacements relationalFamilyTargets
  split_ifs <;> rfl

/-- C8 — Comparison family: for every node, the comparison mutations emitted
per child operator token are exactly the spec's pairwise replacements
(`<` ⇒ `{<=, >}`; `<=` ⇒ `{<, >}`; `>` ⇒ `{>=, <}`; `>=` ⇒ `{>, <}`;
`==` ⇒ `{!=}`; `!=` ⇒ `{==}`; anything else ⇒ none), each with `original`
the operator token's text and the replacement range exactly the operator
token's byte range. -/
theorem comparison_family (src file : List Char) (n : TSNode) :
    (findComparisonMutations src file n).map
        (fun m => (m.original, m.mutated, m.location.byteStart,
          m.location.byteEnd))
      = n.children.flatMap (fun c =>
          (relationalFamilyTargets (getNodeText src c)).map
            (fun rep => (getNodeText src c, rep, c.byteStart, c.byteEnd))) := by
  unfold findComparisonMutations
  rw [List.map_flatMap]
  congr 1
  funext c
  exact comparisonReplacements_targets file (getNodeText src c)
    c.byteStart c.byteEnd (c.row + 1) (c.col + 1)

/-- C9 — on the Dart source `if (true) {}` the generator emits a
control-flow mutation for the condition `(true)` whose `mutated` text equals
its `original` text: the invariant `original ≠ mutated` is violated
(`Mutation::new` performs no such check). -/
theorem if_condition_noop_mutation :
    ∃ mu ∈ findIfStatementMutations ifSrc (str "lib/a.dart") ifStmtNode,
      mu.original = mu.mutated ∧ mu.original = str "(true)" := by decide

end DartMutant
